import Mathlib

/-!
# Verification of the drtrack data-collector core

Shallow embedding of the crawl–dispatch–decode–validate pipeline of
`drtrack_data_collector` (Python), together with proofs of the testable
properties stated in its specification.  Each definition is translated
directly from the named Python function; machine integers that are
nonnegative in every reachable call (Cloud Run task indices/counts, row
counts) are embedded as `Nat`, and values that the code compares against
negative bounds are embedded as `Int`.
-/

namespace DrTrack

/-! ## Task partitioner (`common/utils.py`, `calculate_chunk_range`) -/

/-- `calculate_chunk_range(total_items, task_index, task_count)` from
`common/utils.py` lines 30–45.  The Python guard `task_count <= 0` becomes
`task_count = 0` over `Nat` (the values fed to it are the nonnegative
`CLOUD_RUN_TASK_*` integers).  Note the function has no raise path: invalid
indices still produce a pair, with the end clamped to `total_items`. -/
def calculate_chunk_range (total_items task_index task_count : Nat) : Nat × Nat :=
  if total_items = 0 ∨ task_count = 0 then (0, 0)
  else if task_count = 1 then (0, total_items)
  else
    let chunk_size := total_items / task_count
    let remainder := total_items % task_count
    let start_idx := task_index * chunk_size + min task_index remainder
    let end_idx := start_idx + chunk_size + (if task_index < remainder then 1 else 0)
    (start_idx, min end_idx total_items)

/-- The closed form of a shard's start index: `i*⌊total/count⌋ + min i (total % count)`.
Used to reason uniformly about `calculate_chunk_range`. -/
def chunkStart (total count i : Nat) : Nat :=
  i * (total / count) + min i (total % count)

theorem chunkStart_zero (total count : Nat) : chunkStart total count 0 = 0 := by
  simp [chunkStart]

theorem chunkStart_succ (total count i : Nat) :
    chunkStart total count (i + 1) =
      chunkStart total count i + total / count + (if i < total % count then 1 else 0) := by
  unfold chunkStart
  rcases Nat.lt_or_ge i (total % count) with h | h
  · simp only [if_pos h]
    have h1 : min i (total % count) = i := Nat.min_eq_left (Nat.le_of_lt h)
    have h2 : min (i + 1) (total % count) = i + 1 := Nat.min_eq_left h
    rw [h1, h2, Nat.succ_mul]
    omega
  · simp only [if_neg (Nat.not_lt.mpr h)]
    have h1 : min i (total % count) = total % count := Nat.min_eq_right h
    have h2 : min (i + 1) (total % count) = total % count :=
      Nat.min_eq_right (Nat.le_succ_of_le h)
    rw [h1, h2, Nat.succ_mul]
    omega

theorem chunkStart_mono (total count : Nat) {i j : Nat} (h : i ≤ j) :
    chunkStart total count i ≤ chunkStart total count j := by
  unfold chunkStart
  have hm : i * (total / count) ≤ j * (total / count) :=
    Nat.mul_le_mul_right _ h
  omega

theorem chunkStart_count (total count : Nat) (hc : 0 < count) :
    chunkStart total count count = total := by
  unfold chunkStart
  have hlt : total % count < count := Nat.mod_lt _ hc
  rw [Nat.min_eq_right (Nat.le_of_lt hlt), Nat.div_add_mod]

/-- For a valid shard index, `calculate_chunk_range` is the half-open interval
`[chunkStart i, chunkStart (i+1))`. -/
theorem calculate_chunk_range_eq (total count : Nat) (hc : 0 < count)
    {i : Nat} (hi : i < count) :
    calculate_chunk_range total i count =
      (chunkStart total count i, chunkStart total count (i + 1)) := by
  by_cases h0 : total = 0
  · subst h0
    unfold calculate_chunk_range chunkStart
    simp
  · by_cases h1 : count = 1
    · subst h1
      have hi0 : i = 0 := by omega
      subst hi0
      unfold calculate_chunk_range chunkStart
      simp [h0, Nat.mod_one, Nat.div_one]
    · have hc0 : ¬(total = 0 ∨ count = 0) := by omega
      have hle : chunkStart total count (i + 1) ≤ total := by
        have h := chunkStart_mono total count (show i + 1 ≤ count by omega)
        rw [chunkStart_count total count hc] at h
        exact h
      unfold calculate_chunk_range
      rw [if_neg hc0, if_neg h1]
      show (chunkStart total count i,
          min (chunkStart total count i + total / count
            + (if i < total % count then 1 else 0)) total)
        = (chunkStart total count i, chunkStart total count (i + 1))
      rw [← chunkStart_succ, Nat.min_eq_left hle]

/-- Every `x < chunkStart total count n` lies in one of the first `n` chunks. -/
theorem chunkStart_cover (total count : Nat) :
    ∀ n x, x < chunkStart total count n →
      ∃ i, i < n ∧ chunkStart total count i ≤ x ∧ x < chunkStart total count (i + 1) := by
  intro n
  induction n with
  | zero => intro x hx; rw [chunkStart_zero] at hx; omega
  | succ n ih =>
    intro x hx
    by_cases h : x < chunkStart total count n
    · obtain ⟨i, hi, h1, h2⟩ := ih x h
      exact ⟨i, Nat.lt_succ_of_lt hi, h1, h2⟩
    · exact ⟨n, Nat.lt_succ_self n, Nat.not_lt.mp h, hx⟩

/-- C1: for every `total ≥ 0` and `shardCount ≥ 1`, the ranges returned by
`calculate_chunk_range` for shard indices `0 .. shardCount-1` are contiguous
half-open intervals, pairwise disjoint, with union exactly `[0, total)`, and
any two shard sizes differ by at most 1. -/
theorem chunk_ranges_partition (total count : Nat) (hc : 1 ≤ count) :
    (calculate_chunk_range total 0 count).1 = 0
    ∧ (calculate_chunk_range total (count - 1) count).2 = total
    ∧ (∀ i, i + 1 < count →
        (calculate_chunk_range total i count).2
          = (calculate_chunk_range total (i + 1) count).1)
    ∧ (∀ i j, i < count → j < count → i < j →
        (calculate_chunk_range total i count).2
          ≤ (calculate_chunk_range total j count).1)
    ∧ (∀ i x, i < count → (calculate_chunk_range total i count).1 ≤ x →
        x < (calculate_chunk_range total i count).2 → x < total)
    ∧ (∀ x, x < total → ∃ i, i < count
        ∧ (calculate_chunk_range total i count).1 ≤ x
        ∧ x < (calculate_chunk_range total i count).2)
    ∧ (∀ i j, i < count → j < count →
        (calculate_chunk_range total i count).2
            - (calculate_chunk_range total i count).1
          ≤ ((calculate_chunk_range total j count).2
            - (calculate_chunk_range total j count).1) + 1) := by
  have hc0 : 0 < count := hc
  have heq : ∀ {i : Nat}, i < count → calculate_chunk_range total i count
      = (chunkStart total count i, chunkStart total count (i + 1)) :=
    fun hi => calculate_chunk_range_eq total count hc0 hi
  have hsize : ∀ {i : Nat}, i < count →
      (calculate_chunk_range total i count).2 - (calculate_chunk_range total i count).1
        = total / count + (if i < total % count then 1 else 0) := by
    intro i hi
    rw [heq hi]
    show chunkStart total count (i + 1) - chunkStart total count i = _
    have h := chunkStart_succ total count i
    generalize total / count = q at h ⊢
    omega
  refine ⟨?_, ?_, ?_, ?_, ?_, ?_, ?_⟩
  · rw [heq hc0]; exact chunkStart_zero total count
  · have hlt : count - 1 < count := by omega
    rw [heq hlt]
    simp only
    have : count - 1 + 1 = count := by omega
    rw [this, chunkStart_count total count hc0]
  · intro i hi
    rw [heq (by omega : i < count), heq hi]
  · intro i j hi hj hij
    rw [heq hi, heq hj]
    exact chunkStart_mono total count (by omega)
  · intro i x hi h1 h2
    rw [heq hi] at h1 h2
    have h3 := chunkStart_mono total count (show i + 1 ≤ count by omega)
    rw [chunkStart_count total count hc0] at h3
    have h2' : x < chunkStart total count (i + 1) := h2
    exact lt_of_lt_of_le h2' h3
  · intro x hx
    have hx' : x < chunkStart total count count := by
      rw [chunkStart_count total count hc0]; exact hx
    obtain ⟨i, hi, h1, h2⟩ := chunkStart_cover total count count x hx'
    refine ⟨i, hi, ?_, ?_⟩ <;> rw [heq hi]
    · exact h1
    · exact h2
  · intro i j hi hj
    rw [hsize hi, hsize hj]
    split <;> split <;> omega

/-- Witness for `chunk_ranges_partition` at `total = 7`, `count = 3`
(shards `[0,3) [3,5) [5,7)`). -/
theorem chunk_ranges_partition_witness :
    (1 ≤ 3)
    ∧ ((calculate_chunk_range 7 0 3).1 = 0
    ∧ (calculate_chunk_range 7 (3 - 1) 3).2 = 7
    ∧ (∀ i, i + 1 < 3 →
        (calculate_chunk_range 7 i 3).2 = (calculate_chunk_range 7 (i + 1) 3).1)
    ∧ (∀ i j, i < 3 → j < 3 → i < j →
        (calculate_chunk_range 7 i 3).2 ≤ (calculate_chunk_range 7 j 3).1)
    ∧ (∀ i x, i < 3 → (calculate_chunk_range 7 i 3).1 ≤ x →
        x < (calculate_chunk_range 7 i 3).2 → x < 7)
    ∧ (∀ x, x < 7 → ∃ i, i < 3
        ∧ (calculate_chunk_range 7 i 3).1 ≤ x
        ∧ x < (calculate_chunk_range 7 i 3).2)
    ∧ (∀ i j, i < 3 → j < 3 →
        (calculate_chunk_range 7 i 3).2 - (calculate_chunk_range 7 i 3).1
          ≤ ((calculate_chunk_range 7 j 3).2 - (calculate_chunk_range 7 j 3).1) + 1)) :=
  ⟨by decide, chunk_ranges_partition 7 3 (by decide)⟩

/-! ## Configuration validation (`config.py`, `Config.validate`) -/

/-- The fields of `Config` (from `config.py`) that `Config.validate` inspects.
Task index/count are embedded as `Int` because `validate` compares them
against negative bounds. -/
structure Config where
  project_id : String
  input_bucket : String
  task_index : Int
  task_count : Int

/-- `Config.validate` from `config.py` lines 86–101: raises `ValueError`
(modelled as `Except.error` with the message) on an empty project id or
bucket, a negative task index, a nonpositive task count, or a task index not
below the task count; otherwise returns normally. -/
def Config.validate (c : Config) : Except String Unit :=
  if c.project_id = "" then .error "PROJECT_ID が設定されていません"
  else if c.input_bucket = "" then .error "INPUT_BUCKET が設定されていません"
  else if c.task_index < 0 then .error "無効なタスクインデックス"
  else if c.task_count ≤ 0 then .error "無効なタスク数"
  else if c.task_count ≤ c.task_index then .error "タスクインデックスがタスク数以上です"
  else .ok ()

/-- C7 counterexample: the claim says the partitioner itself fails with a
`ConfigurationError` on `shardIndex ≥ shardCount` or `shardCount ≤ 0`; in the
code `calculate_chunk_range` has no failure path and returns a pair on both
inputs (`(16, 10)` for `total=10, index=5, count=3`, clamped at the end, and
`(0, 0)` for `count = 0`). -/
theorem calculate_chunk_range_no_error :
    calculate_chunk_range 10 5 3 = (16, 10) ∧ calculate_chunk_range 10 0 0 = (0, 0) := by
  decide

/-- C7 amended: `calculate_chunk_range` never raises — with `shardCount ≤ 0`
it returns `(0, 0)` and on any other input it returns a (possibly clamped)
pair; the `shardIndex ≥ shardCount` / `shardCount ≤ 0` rejection is instead
performed by `Config.validate`, which errors exactly when the project id or
bucket is empty, the task index is negative, the task count is nonpositive,
or the task index is not below the task count. -/
theorem partition_validation_split :
    (∀ total idx, calculate_chunk_range total idx 0 = (0, 0))
    ∧ (∀ c : Config, c.validate = Except.ok () ↔
        (c.project_id ≠ "" ∧ c.input_bucket ≠ "" ∧ 0 ≤ c.task_index
          ∧ 0 < c.task_count ∧ c.task_index < c.task_count)) := by
  constructor
  · intro total idx
    simp [calculate_chunk_range]
  · intro c
    unfold Config.validate
    split_ifs with h1 h2 h3 h4 h5 <;> simp_all

/-! ## Python string primitives

The Python string operations the embedded code uses, modelled over
`String.data` (`List Char`) so that every definition evaluates by kernel
reduction. -/

/-- Python `str.lower()` (ASCII case folding; the keywords and prefixes the
embedded code compares case-insensitively are ASCII). -/
def pyLower (s : String) : String :=
  String.mk (s.data.map Char.toLower)

/-- Python `str.startswith`. -/
def pyStartsWith (s p : String) : Bool :=
  p.data.isPrefixOf s.data

/-- Python `needle in hay` on strings: substring containment. -/
def strContains (hay needle : String) : Bool :=
  decide (needle.data <:+: hay.data)

/-! ## Processing statistics (`processors/statistics_manager.py`) -/

/-- `ProcessingStatistics` from `statistics_manager.py` lines 14–38.  The
Python `float` success rate is embedded as `ℚ` (the code only ever assigns it
an exact quotient of two counters, or `0.0`); the three dicts are embedded as
insertion-ordered association lists, matching Python dict semantics. -/
structure ProcessingStatistics where
  total_processed : Nat
  ai_success_count : Nat
  ai_failure_count : Nat
  ai_success_rate : ℚ
  failure_breakdown : List (String × Nat)
  composite_type_stats : List (String × Nat)
  processing_by_hour : List (String × Nat)
deriving DecidableEq

/-- A freshly constructed `ProcessingStatistics()` (all dataclass defaults). -/
def ProcessingStatistics.init : ProcessingStatistics :=
  ⟨0, 0, 0, 0, [], [], []⟩

/-- `ProcessingStatistics.calculate_success_rate`. -/
def ProcessingStatistics.calculate_success_rate
    (s : ProcessingStatistics) : ProcessingStatistics :=
  { s with ai_success_rate :=
      if 0 < s.total_processed
      then (s.ai_success_count : ℚ) / (s.total_processed : ℚ)
      else 0 }

/-- The `if key in dict: dict[key] += 1 else: dict[key] = 1` idiom used for
the breakdown dicts; a fresh key is appended (Python dict insertion order). -/
def bumpKey : List (String × Nat) → String → List (String × Nat)
  | [], k => [(k, 1)]
  | (k', v) :: rest, k =>
    if k' = k then (k', v + 1) :: rest else (k', v) :: bumpKey rest k

/-- `FailureRecord` from `processors/failure_recorder.py`.  The `datetime`
timestamp is embedded by the `'%Y-%m-%d-%H'` hour key that
`update_failure` derives from it (the only use the statistics make of it). -/
structure FailureRecord where
  url : String
  fac_id_unif : String
  failure_reason : String
  error_details : String
  hour_key : String
deriving DecidableEq

/-- `FailureStatistics.update_failure` (statistics_manager.py lines 54–79):
bump total and failure counters, bump the reason and hour breakdowns, then
recompute the success rate.  The method performs no alert check and no
logging. -/
def FailureStatistics.update_failure
    (failure_record : FailureRecord) (s : ProcessingStatistics) : ProcessingStatistics :=
  let s1 := { s with
    total_processed := s.total_processed + 1,
    ai_failure_count := s.ai_failure_count + 1 }
  let s2 := { s1 with
    failure_breakdown := bumpKey s1.failure_breakdown failure_record.failure_reason }
  let s3 := { s2 with
    processing_by_hour := bumpKey s2.processing_by_hour failure_record.hour_key }
  s3.calculate_success_rate

/-- `FailureStatistics.update_success` (statistics_manager.py lines 81–108):
bump total and success counters, bump the composite-type breakdown when the
url type starts with `sg_`, bump the hour breakdown (the hour key derived
from `datetime.now` is passed in), then recompute the success rate.  The
method performs no alert check and no logging. -/
def FailureStatistics.update_success
    (url_type hour_key : String) (s : ProcessingStatistics) : ProcessingStatistics :=
  let s1 := { s with
    total_processed := s.total_processed + 1,
    ai_success_count := s.ai_success_count + 1 }
  let s2 :=
    if pyStartsWith url_type "sg_"
    then { s1 with composite_type_stats := bumpKey s1.composite_type_stats url_type }
    else s1
  let s3 := { s2 with processing_by_hour := bumpKey s2.processing_by_hour hour_key }
  s3.calculate_success_rate

/-- One statistics update of the run: either `update_success` (with its url
type and hour key) or `update_failure` (with its failure record). -/
inductive StatsOp where
  | success (url_type hour_key : String)
  | failure (record : FailureRecord)

/-- Apply one update to the statistics aggregate. -/
def applyStatsOp (s : ProcessingStatistics) : StatsOp → ProcessingStatistics
  | .success t h => FailureStatistics.update_success t h s
  | .failure fr => FailureStatistics.update_failure fr s

/-- The C10 invariant: the counters are consistent and the stored rate equals
the quotient of the counters (0 when nothing was processed). -/
def statsInvariant (s : ProcessingStatistics) : Prop :=
  s.total_processed = s.ai_success_count + s.ai_failure_count
  ∧ s.ai_success_rate =
      (if 0 < s.total_processed
       then (s.ai_success_count : ℚ) / (s.total_processed : ℚ)
       else 0)

theorem statsInvariant_init : statsInvariant ProcessingStatistics.init := by
  constructor <;> simp [ProcessingStatistics.init]

theorem statsInvariant_step (s : ProcessingStatistics) (op : StatsOp)
    (h : statsInvariant s) : statsInvariant (applyStatsOp s op) := by
  obtain ⟨h1, _⟩ := h
  cases op with
  | success t hk =>
    unfold applyStatsOp FailureStatistics.update_success
      ProcessingStatistics.calculate_success_rate statsInvariant
    by_cases hsg : pyStartsWith t "sg_" <;> simp [hsg] <;> omega
  | failure fr =>
    unfold applyStatsOp FailureStatistics.update_failure
      ProcessingStatistics.calculate_success_rate statsInvariant
    simp
    omega

theorem statsInvariant_foldl (ops : List StatsOp) :
    ∀ s, statsInvariant s → statsInvariant (ops.foldl applyStatsOp s) := by
  induction ops with
  | nil => intro s h; exact h
  | cons op rest ih =>
    intro s h
    exact ih _ (statsInvariant_step s op h)

/-- C10: from a fresh `ProcessingStatistics`, any sequence of
`update_success`/`update_failure` operations keeps
`total_processed = ai_success_count + ai_failure_count` and keeps
`ai_success_rate` equal to `ai_success_count / total_processed` (`0` when
`total_processed = 0`); each single update preserves the invariant. -/
theorem processing_statistics_invariant :
    (∀ s op, statsInvariant s → statsInvariant (applyStatsOp s op))
    ∧ (∀ ops : List StatsOp,
        statsInvariant (ops.foldl applyStatsOp ProcessingStatistics.init)) :=
  ⟨statsInvariant_step,
   fun ops => statsInvariant_foldl ops ProcessingStatistics.init statsInvariant_init⟩

/-! ## Failure-rate alerting
(`processors/failure_recorder.py`, `processors/url_collector.py`) -/

/-- The default `failure_rate_alert_threshold` of `config.py` (`0.15`,
embedded as the exact rational the literal denotes). -/
def failure_rate_alert_threshold_default : ℚ := 15 / 100

/-- `AlertManager.check_and_alert` (failure_recorder.py lines 99–129): the
alert log lines the call emits.  Nothing is emitted when nothing was
processed; otherwise the single high-failure-rate line is logged exactly when
`ai_failure_count / total_processed` exceeds the threshold. -/
def AlertManager.check_and_alert
    (threshold : ℚ) (stats : ProcessingStatistics) : List String :=
  if stats.total_processed = 0 then []
  else if threshold < (stats.ai_failure_count : ℚ) / (stats.total_processed : ℚ) then
    ["[ALERT:HIGH_AI_FAILURE_RATE] AI失敗率が警戒しきい値を超過"]
  else []

/-- One statistics update as performed by `UrlCollectorProcessor`
(url_collector.py lines 540–570): the new statistics paired with the alert
lines the update emits.  The source calls only
`failure_statistics.update_success` / `update_failure` there — both pure
statistics mutations containing no `check_and_alert` call — so an update
step emits no alert line; `check_and_alert` runs only via `cleanup`. -/
def statsUpdateAlerts (s : ProcessingStatistics) (op : StatsOp) :
    ProcessingStatistics × List String :=
  (applyStatsOp s op, [])

/-- `UrlCollectorProcessor.cleanup` (url_collector.py lines 590–620), alert
part of one call: evaluate `check_and_alert` on the statistics current at
that point. -/
def UrlCollectorProcessor.cleanupAlerts
    (threshold : ℚ) (stats : ProcessingStatistics) : List String :=
  AlertManager.check_and_alert threshold stats

/-- The statistics updates one facility contributes (one `update_success` or
`update_failure` per URL classified for it, url_collector.py lines
540–570). -/
def facilityFold (s : ProcessingStatistics) (fac : List StatsOp) : ProcessingStatistics :=
  fac.foldl applyStatsOp s

/-- The alert-relevant skeleton of a url_collector run
(`process_data_async`, url_collector.py lines 96–119, and `run`'s `finally`,
lines 630–640): facilities are processed in order, `current` counting those
already processed (`progress.current`); after each facility, `cleanup()` —
and with it `check_and_alert` — runs when `progress.current % 5 == 0`, on the
statistics at that point; when the loop ends, the `finally` block runs
`cleanup()` once more on the final statistics.  Each list entry is the alert
output of one step (empty at a non-cleanup point — the updates themselves
emit nothing). -/
def runUrlCollectorAlerts (threshold : ℚ) :
    List (List StatsOp) → Nat → ProcessingStatistics → List (List String)
  | [], _, s => [UrlCollectorProcessor.cleanupAlerts threshold s]
  | fac :: rest, current, s =>
    let s' := facilityFold s fac
    (if (current + 1) % 5 = 0
     then UrlCollectorProcessor.cleanupAlerts threshold s' else [])
      :: runUrlCollectorAlerts threshold rest (current + 1) s'

/-- C6 counterexample: after a single failing update the failure rate is
`1 > 0.15`, yet the update emits no alert — the failure-rate check is not
re-evaluated on every update. -/
theorem alert_not_checked_on_update :
    failure_rate_alert_threshold_default <
      ((FailureStatistics.update_failure
          ⟨"http://h.example/", "F1", "API_ERROR", "401", "2025-01-01-00"⟩
          ProcessingStatistics.init).ai_failure_count : ℚ)
        / ((FailureStatistics.update_failure
          ⟨"http://h.example/", "F1", "API_ERROR", "401", "2025-01-01-00"⟩
          ProcessingStatistics.init).total_processed : ℚ)
    ∧ (statsUpdateAlerts ProcessingStatistics.init
        (.failure ⟨"http://h.example/", "F1", "API_ERROR", "401", "2025-01-01-00"⟩)).2
        = [] := by
  constructor
  · norm_num [FailureStatistics.update_failure, ProcessingStatistics.init,
      ProcessingStatistics.calculate_success_rate, bumpKey,
      failure_rate_alert_threshold_default]
  · rfl

/-- C6 amended: statistics updates themselves never emit an alert or evaluate
the threshold; the high-failure-rate check runs only at the `cleanup` calls —
after every 5th facility and once more when the run ends — each evaluation on
the statistics current at that point (so intermediate statistics mid-run, the
final statistics at the end), and an evaluation fires exactly when
`total_processed > 0` and `ai_failure_count / total_processed` exceeds the
threshold. -/
theorem check_and_alert_characterization :
    (∀ s op, (statsUpdateAlerts s op).2 = [])
    ∧ (∀ (threshold : ℚ) (s : ProcessingStatistics),
        UrlCollectorProcessor.cleanupAlerts threshold s ≠ [] ↔
          (0 < s.total_processed
            ∧ threshold < (s.ai_failure_count : ℚ) / (s.total_processed : ℚ)))
    ∧ (∀ (threshold : ℚ) (facs : List (List StatsOp)) (current : Nat)
          (s : ProcessingStatistics),
        runUrlCollectorAlerts threshold facs current s
          = ((List.range facs.length).map fun i =>
              if (current + i + 1) % 5 = 0
              then UrlCollectorProcessor.cleanupAlerts threshold
                ((facs.take (i + 1)).foldl facilityFold s)
              else [])
            ++ [UrlCollectorProcessor.cleanupAlerts threshold
                (facs.foldl facilityFold s)]) := by
  refine ⟨fun s op => rfl, ?_, ?_⟩
  · intro threshold s
    unfold UrlCollectorProcessor.cleanupAlerts AlertManager.check_and_alert
    split_ifs with h1 h2 <;> simp_all <;> omega
  · intro threshold facs
    induction facs with
    | nil => intro current s; simp [runUrlCollectorAlerts]
    | cons fac rest ih =>
      intro current s
      simp only [runUrlCollectorAlerts]
      rw [ih (current + 1) (facilityFold s fac)]
      rw [show (fac :: rest).length = rest.length + 1 from rfl,
        List.range_succ_eq_map, List.map_cons, List.map_map, List.cons_append,
        List.foldl_cons]
      have hpt : ∀ i ∈ List.range rest.length,
          (if (current + 1 + i + 1) % 5 = 0
           then UrlCollectorProcessor.cleanupAlerts threshold
             ((rest.take (i + 1)).foldl facilityFold (facilityFold s fac))
           else [])
            = ((fun i =>
                if (current + i + 1) % 5 = 0
                then UrlCollectorProcessor.cleanupAlerts threshold
                  (((fac :: rest).take (i + 1)).foldl facilityFold s)
                else []) ∘ Nat.succ) i := by
        intro i _
        simp only [Function.comp, Function.comp_apply, Nat.succ_eq_add_one,
          List.take_succ_cons, List.foldl_cons]
        have harith : current + 1 + i + 1 = current + (i + 1) + 1 := by omega
        rw [harith]
      rw [List.map_congr_left hpt]
      simp [List.take_succ_cons]

/-! ## Record deduplication (`processors/doctor_info.py`) -/

/-- The whitespace characters matched by Python's `\s` (and `str.strip`) on
the text this system handles: ASCII whitespace, NBSP, NEL and the ideographic
space `　` that the source's character class names explicitly. -/
def isPySpace (c : Char) : Bool :=
  c = ' ' ∨ c = '\t' ∨ c = '\n' ∨ c = '\r' ∨ c = '\x0b' ∨ c = '\x0c'
    ∨ c = '\x85' ∨ c = '\xa0' ∨ c = '　'

/-- Collapse every run of two or more `' '` to a single `' '` (the effect of
`re.sub(r'[\s　]+', ' ', text)` once every whitespace character has been
mapped to `' '`). -/
def squeezeSpaces : List Char → List Char
  | [] => []
  | [c] => [c]
  | a :: b :: rest =>
    if a = ' ' ∧ b = ' ' then squeezeSpaces (b :: rest)
    else a :: squeezeSpaces (b :: rest)

/-- Python `str.strip()`: drop leading and trailing whitespace. -/
def pyStrip (l : List Char) : List Char :=
  ((l.dropWhile isPySpace).reverse.dropWhile isPySpace).reverse

/-- `_normalize_text` from `processors/doctor_info.py` lines 345–358: unify
full/half-width whitespace runs to a single space, unify `，`/`。` to
`,`/`.`, and strip the ends. -/
def _normalize_text (text : String) : String :=
  if text = "" then ""
  else
    let cs := (text.data.map fun c => if isPySpace c then ' ' else c)
    let cs := squeezeSpaces cs
    let cs := cs.map fun c => if c = '，' then ',' else if c = '。' then '.' else c
    String.mk (pyStrip cs)

/-- One output record of the doctor-info processor
(`_process_doctor_record`, doctor_info.py lines 269–281). -/
structure DoctorRecord where
  fac_id_unif : String
  output_order : String
  department : String
  name : String
  position : String
  specialty : String
  licence : String
  others : String
  output_datetime : String
  ai_version : String
  url : String
deriving DecidableEq

/-- `_create_record_signature` (doctor_info.py lines 427–444): the
tab-joined normalized main fields, excluding `output_order` and
`output_datetime` (and the identifiers). -/
def _create_record_signature (record : DoctorRecord) : String :=
  String.intercalate "\t"
    [_normalize_text record.department,
     _normalize_text record.name,
     _normalize_text record.position,
     _normalize_text record.specialty,
     _normalize_text record.licence,
     _normalize_text record.others]

/-- The loop of `_remove_duplicate_records`: walk the records keeping a set
of seen signatures, appending a record only when its signature is new. -/
def removeDupGo (seen : List String) (acc : List DoctorRecord) :
    List DoctorRecord → List DoctorRecord
  | [] => acc.reverse
  | r :: rest =>
    let signature := _create_record_signature r
    if signature ∈ seen then removeDupGo seen acc rest
    else removeDupGo (signature :: seen) (r :: acc) rest

/-- `_remove_duplicate_records` (doctor_info.py lines 446–472). -/
def _remove_duplicate_records (records : List DoctorRecord) : List DoctorRecord :=
  removeDupGo [] [] records

/-- A record whose signature is already seen is skipped, wherever it occurs. -/
theorem removeDupGo_drop (r2 : DoctorRecord) :
    ∀ (l2 l3 : List DoctorRecord) (seen : List String) (acc : List DoctorRecord),
      _create_record_signature r2 ∈ seen →
      removeDupGo seen acc (l2 ++ r2 :: l3) = removeDupGo seen acc (l2 ++ l3) := by
  intro l2
  induction l2 with
  | nil =>
    intro l3 seen acc h
    simp only [List.nil_append, removeDupGo, if_pos h]
  | cons x rest ih =>
    intro l3 seen acc h
    simp only [List.cons_append, removeDupGo]
    by_cases hx : _create_record_signature x ∈ seen
    · rw [if_pos hx, if_pos hx]
      exact ih l3 seen acc h
    · rw [if_neg hx, if_neg hx]
      exact ih l3 _ _ (List.mem_cons_of_mem _ h)

/-- Once some earlier record with the same signature has been processed, a
later duplicate is dropped. -/
theorem removeDupGo_dedup (r1 r2 : DoctorRecord)
    (hsig : _create_record_signature r1 = _create_record_signature r2) :
    ∀ (l1 l2 l3 : List DoctorRecord) (seen : List String) (acc : List DoctorRecord),
      removeDupGo seen acc (l1 ++ r1 :: l2 ++ r2 :: l3)
        = removeDupGo seen acc (l1 ++ r1 :: (l2 ++ l3)) := by
  intro l1
  induction l1 with
  | nil =>
    intro l2 l3 seen acc
    simp only [List.nil_append, removeDupGo]
    by_cases h1 : _create_record_signature r1 ∈ seen
    · rw [if_pos h1, if_pos h1]
      exact removeDupGo_drop r2 l2 l3 seen acc (hsig ▸ h1)
    · rw [if_neg h1, if_neg h1]
      exact removeDupGo_drop r2 l2 l3 _ _ (hsig ▸ List.mem_cons_self _ _)
  | cons x rest ih =>
    intro l2 l3 seen acc
    simp only [List.cons_append, removeDupGo]
    by_cases hx : _create_record_signature x ∈ seen
    · rw [if_pos hx, if_pos hx]
      exact ih l2 l3 seen acc
    · rw [if_neg hx, if_neg hx]
      exact ih l2 l3 _ _

/-- C3: two records that agree on every field except the sequence number
(`output_order`) and the timestamp (`output_datetime`) get the same
deduplication signature, and wherever both occur in one batch (same
organization), `_remove_duplicate_records` drops the second occurrence, so
only the first reaches the output. -/
theorem duplicate_records_collapsed (r1 r2 : DoctorRecord)
    (hfac : r1.fac_id_unif = r2.fac_id_unif)
    (hdep : r1.department = r2.department)
    (hname : r1.name = r2.name)
    (hpos : r1.position = r2.position)
    (hspec : r1.specialty = r2.specialty)
    (hlic : r1.licence = r2.licence)
    (hoth : r1.others = r2.others)
    (hai : r1.ai_version = r2.ai_version)
    (hurl : r1.url = r2.url) :
    _create_record_signature r1 = _create_record_signature r2
    ∧ ∀ l1 l2 l3 : List DoctorRecord,
        _remove_duplicate_records (l1 ++ r1 :: l2 ++ r2 :: l3)
          = _remove_duplicate_records (l1 ++ r1 :: (l2 ++ l3)) := by
  have hsig : _create_record_signature r1 = _create_record_signature r2 := by
    unfold _create_record_signature
    rw [hdep, hname, hpos, hspec, hlic, hoth]
  exact ⟨hsig, fun l1 l2 l3 => removeDupGo_dedup r1 r2 hsig l1 l2 l3 [] []⟩

/-- Witness for `duplicate_records_collapsed`: two concrete records that
differ only in `output_order` and `output_datetime`. -/
theorem duplicate_records_collapsed_witness :
    _create_record_signature
        ⟨"F1", "F1_00001", "内科", "田中 太一", "部長", "", "", "",
          "2025-01-01 09:00:00", "gemini-2.5-flash-lite", "http://h.example/doctors/"⟩
      = _create_record_signature
        ⟨"F1", "F1_00002", "内科", "田中 太一", "部長", "", "", "",
          "2025-01-02 09:00:00", "gemini-2.5-flash-lite", "http://h.example/doctors/"⟩
    ∧ ∀ l1 l2 l3 : List DoctorRecord,
        _remove_duplicate_records (l1
            ++ ⟨"F1", "F1_00001", "内科", "田中 太一", "部長", "", "", "",
                "2025-01-01 09:00:00", "gemini-2.5-flash-lite", "http://h.example/doctors/"⟩
            :: l2
            ++ ⟨"F1", "F1_00002", "内科", "田中 太一", "部長", "", "", "",
                "2025-01-02 09:00:00", "gemini-2.5-flash-lite", "http://h.example/doctors/"⟩
            :: l3)
          = _remove_duplicate_records (l1
            ++ ⟨"F1", "F1_00001", "内科", "田中 太一", "部長", "", "", "",
                "2025-01-01 09:00:00", "gemini-2.5-flash-lite", "http://h.example/doctors/"⟩
            :: (l2 ++ l3)) :=
  duplicate_records_collapsed _ _ rfl rfl rfl rfl rfl rfl rfl rfl rfl

/-! ## Retry behaviour of the AI client (`common/ai_client.py`) -/

/-- `FailureReasonClassifier.FAILURE_TYPES` from
`processors/failure_recorder.py` lines 28–36, in dict insertion order. -/
def FAILURE_TYPES : List (String × List String) :=
  [("CONNECTION_ERROR", ["connection", "network", "dns", "unreachable"]),
   ("TIMEOUT_ERROR", ["timeout", "deadline", "timed out"]),
   ("API_RATE_LIMIT", ["429", "rate_limit", "quota", "too many requests"]),
   ("API_ERROR", ["400", "401", "403", "404", "500", "502", "503"]),
   ("EMPTY_RESPONSE", ["empty", "null", "no_records", "no data"]),
   ("PARSING_ERROR", ["json", "parse", "format", "decode", "invalid"]),
   ("UNKNOWN_ERROR", [])]

/-- `FailureReasonClassifier.classify` (failure_recorder.py lines 38–51):
first failure type whose keyword list has a member occurring in the
lower-cased error text; `UNKNOWN_ERROR` (empty keyword list) otherwise. -/
def FailureReasonClassifier.classify (error : String) : String :=
  let error_str := pyLower error
  match FAILURE_TYPES.find? (fun p => p.2.any fun k => strContains error_str k) with
  | some p => p.1
  | none => "UNKNOWN_ERROR"

/-- `wait_exponential(multiplier=1, min=4, max=10)` of tenacity: the sleep
(in seconds) performed after the `attempt`-th failed attempt. -/
def wait_exponential_1_4_10 (attempt : Nat) : Nat :=
  min 10 (max 4 (2 ^ (attempt - 1)))

/-- The `@retry(stop=stop_after_attempt(3), wait=wait_exponential(multiplier=1,
min=4, max=10))` decorator wrapped around `UnifiedAIClient.process_with_ai`
(ai_client.py lines 42–96).  `f n` is the outcome of the `n`-th attempt of the
wrapped body (which re-raises every exception it catches).  tenacity's retry
condition is the default — retry on ANY exception, with no inspection of the
error — and stops after 3 attempts in total, re-raising the last error.
Returns (result, attempts made, sleeps performed). -/
def process_with_ai_run (f : Nat → Except String α) :
    Except String α × Nat × List Nat :=
  match f 1 with
  | .ok r => (.ok r, 1, [])
  | .error _ =>
    match f 2 with
    | .ok r => (.ok r, 2, [wait_exponential_1_4_10 1])
    | .error _ => (f 3, 3, [wait_exponential_1_4_10 1, wait_exponential_1_4_10 2])

/-- The value `process_with_ai` returns (or the error it finally raises). -/
def process_with_ai (f : Nat → Except String α) : Except String α :=
  (process_with_ai_run f).1

/-- How many times the wrapped body is attempted. -/
def process_with_ai_attempts (f : Nat → Except String α) : Nat :=
  (process_with_ai_run f).2.1

/-- C5 counterexample: a permanently failing call (`401`, classified
`API_ERROR`, not rate limiting or a 5xx-equivalent transient) is attempted 3
times, not once — the retry decorator does not distinguish transient from
permanent failures. -/
theorem permanent_error_is_retried :
    process_with_ai_attempts (fun _ => (.error "401 Unauthorized" : Except String Unit)) = 3
    ∧ FailureReasonClassifier.classify "401 Unauthorized" = "API_ERROR"
    ∧ FailureReasonClassifier.classify "401 Unauthorized" ≠ "API_RATE_LIMIT" := by
  refine ⟨rfl, by decide, by decide⟩

/-- C5 amended: every failure — transient or permanent — is retried, up to 3
total attempts (tenacity `stop_after_attempt(3)`, a constant independent of
`config.max_retries`), sleeping `wait_exponential(multiplier=1, min=4,
max=10)` between attempts; the first success is returned, and after 3
failures the last error propagates. -/
theorem process_with_ai_retry_behaviour :
    (∀ (f : Nat → Except String Unit), process_with_ai_attempts f ≤ 3)
    ∧ (∀ (f : Nat → Except String Unit) r, f 1 = .ok r →
        process_with_ai f = .ok r ∧ process_with_ai_attempts f = 1)
    ∧ (∀ (f : Nat → Except String Unit) e r, f 1 = .error e → f 2 = .ok r →
        process_with_ai f = .ok r ∧ process_with_ai_attempts f = 2)
    ∧ (∀ (f : Nat → Except String Unit) (e : Nat → String),
        (∀ n, f n = .error (e n)) →
        process_with_ai_run f
          = (.error (e 3), 3,
              [wait_exponential_1_4_10 1, wait_exponential_1_4_10 2])) := by
  refine ⟨?_, ?_, ?_, ?_⟩
  · intro f
    unfold process_with_ai_attempts process_with_ai_run
    cases f 1 <;> simp <;> cases f 2 <;> simp
  · intro f r h
    unfold process_with_ai process_with_ai_attempts process_with_ai_run
    rw [h]
    exact ⟨rfl, rfl⟩
  · intro f e r h1 h2
    unfold process_with_ai process_with_ai_attempts process_with_ai_run
    rw [h1, h2]
    exact ⟨rfl, rfl⟩
  · intro f e h
    unfold process_with_ai_run
    rw [h 1, h 2, h 3]

/-! ## URL exclusion checks of the crawler (`processors/url_collector.py`) -/

/-- The netloc of an `http://` / `https://` URL as `urllib.parse.urlparse`
computes it: everything after the scheme separator up to the first `/`, `?`
or `#`.  (`validate_url` admits only such URLs, and the crawler's seed URLs
are such, so this is the whole domain of use.) -/
def urlparse_netloc (url : String) : String :=
  let rest :=
    if pyStartsWith url "http://" then (url.data.drop 7)
    else if pyStartsWith url "https://" then (url.data.drop 8)
    else []
  String.mk (rest.takeWhile fun c => ¬(c = '/' ∨ c = '?' ∨ c = '#'))

/-- `validate_url` from `common/utils.py` lines 14–27: non-empty, an
`http(s)://` prefix, and a parsed non-empty netloc and scheme (the scheme is
non-empty whenever the prefix check passed). -/
def validate_url (url : String) : Bool :=
  if url = "" then false
  else if ¬(pyStartsWith url "http://" ∨ pyStartsWith url "https://") then false
  else urlparse_netloc url ≠ ""

/-- `extract_domain` from `common/utils.py` lines 119–124:
`urlparse(url).netloc.lower()`. -/
def extract_domain (url : String) : String :=
  pyLower (urlparse_netloc url)

/-- `UrlCollectorProcessor.exclude_keywords` (url_collector.py lines 56–62). -/
def exclude_keywords : List String :=
  ["sitemap", "privacy", "contact", "access", "map", "faq",
   "tel:", "mailto:", "javascript:", "#",
   "プライバシー", "個人情報", "お問い合わせ", "アクセス",
   "よくある質問", "ご質問"]

/-- What the source's extension pattern `r'\\.(pdf|doc|docx|xls|xlsx|zip|jpg|jpeg|png|gif)$'`
actually matches: being a RAW string, `\\` is an escaped literal backslash
and `.` is the any-character metachar, so `re.search` matches exactly the
strings ending in a literal backslash, one (non-newline) character and one of
the listed extension words.  (URLs contain no newline, so `$` is plain
end-of-string here.) -/
def broken_extension_search (url : String) : Bool :=
  ["pdf", "doc", "docx", "xls", "xlsx", "zip", "jpg", "jpeg", "png", "gif"].any
    fun ext =>
      let s := url.data.reverse
      let e := ext.data.reverse
      e.isPrefixOf s &&
        match s.drop e.length with
        | c :: '\\' :: _ => decide (c ≠ '\n')
        | _ => false

/-- The extension check the source's own comment (`ファイル拡張子チェック`)
and the spec describe: the URL ends in a dot and one of the excluded
extensions (the pattern as it was evidently meant, `r'\.(…)$'`). -/
def intended_extension_check (url : String) : Bool :=
  ["pdf", "doc", "docx", "xls", "xlsx", "zip", "jpg", "jpeg", "png", "gif"].any
    fun ext => (("." ++ ext).data).isSuffixOf url.data

/-- `UrlCollectorProcessor._should_crawl_url` (url_collector.py lines
209–229): URL validity, domain equality, excluded-keyword absence, then the
(broken) excluded-extension pattern. -/
def _should_crawl_url (url allowed_domain : String) : Bool :=
  if ¬ validate_url url then false
  else if extract_domain url ≠ allowed_domain then false
  else if exclude_keywords.any (fun keyword => strContains (pyLower url) keyword) then false
  else if broken_extension_search (pyLower url) then false
  else true

/-- C4: the claim (and the code's own comment) says a same-domain URL ending
in `.pdf` is excluded and never fetched; in the code the raw-string pattern
`r'\\.(pdf|…)$'` requires a literal backslash, so
`http://h.example/a.pdf` passes every check of `_should_crawl_url` and is
crawled, while the intended extension check would have rejected it. -/
theorem pdf_url_passes_should_crawl_url :
    _should_crawl_url "http://h.example/a.pdf" "h.example" = true
    ∧ broken_extension_search (pyLower "http://h.example/a.pdf") = false
    ∧ intended_extension_check "http://h.example/a.pdf" = true := by
  refine ⟨by decide, by decide, by decide⟩

/-! ## Record validation against the source page (`processors/doctor_info.py`) -/

/-- Python `str.strip()` on a `String`. -/
def pyStripS (s : String) : String :=
  String.mk (pyStrip s.data)

/-- Python no-argument `str.split()` as applied to `_normalize_text` output
(whose only whitespace is `' '`): split on space runs, dropping empties. -/
def splitWsAux : List Char → List Char → List String
  | [], acc => if acc = [] then [] else [String.mk acc.reverse]
  | c :: rest, acc =>
    if c = ' ' then
      if acc = [] then splitWsAux rest []
      else String.mk acc.reverse :: splitWsAux rest []
    else splitWsAux rest (c :: acc)

/-- Python `s.split()` (no separator argument). -/
def pySplitWhitespace (s : String) : List String :=
  splitWsAux s.data []

/-- `_validate_field_in_html` (doctor_info.py lines 360–378): an empty or
whitespace-only field is valid; otherwise the normalized field must occur in
the normalized content, or — for fields of at least 3 characters — each of
its words of at least 2 characters must occur in the normalized content. -/
def _validate_field_in_html (field_value html_content : String) : Bool :=
  if field_value = "" ∨ pyStripS field_value = "" then true
  else
    let field_normalized := _normalize_text field_value
    let html_normalized := _normalize_text html_content
    if strContains html_normalized field_normalized then true
    else if 3 ≤ field_normalized.data.length then
      ((pySplitWhitespace field_normalized).filter fun w => 2 ≤ w.data.length).all
        fun w => strContains html_normalized w
    else false

/-- The per-record cleanup of `_validate_records_against_html`: every
non-primary field (`position`, `specialty`, `licence`, `others`) that is not
attested in the content is blanked; `name` and `department` are kept as is
(the record is only kept at all when both are attested). -/
def blankUnattestedFields (record : DoctorRecord) (html_content : String) : DoctorRecord :=
  { record with
    position :=
      if _validate_field_in_html record.position html_content then record.position else "",
    specialty :=
      if _validate_field_in_html record.specialty html_content then record.specialty else "",
    licence :=
      if _validate_field_in_html record.licence html_content then record.licence else "",
    others :=
      if _validate_field_in_html record.others html_content then record.others else "" }

/-- `_validate_records_against_html` (doctor_info.py lines 380–425): drop a
record when `name` or `department` is not attested in the content; otherwise
keep it with unattested non-primary fields blanked. -/
def _validate_records_against_html
    (records : List DoctorRecord) (html_content : String) : List DoctorRecord :=
  match records with
  | [] => []
  | record :: rest =>
    if ¬ _validate_field_in_html record.name html_content
        ∨ ¬ _validate_field_in_html record.department html_content
    then _validate_records_against_html rest html_content
    else blankUnattestedFields record html_content
        :: _validate_records_against_html rest html_content

/-- C8: a record is dropped exactly when one of the primary identifying
fields (`name`, `department`) is not attested in the normalized content; a
kept record keeps its primary fields and keeps each secondary field exactly
when it is attested, blanking it to `""` otherwise; and an empty field always
counts as attested. -/
theorem record_validation_policy (records : List DoctorRecord) (html : String) :
    (∀ s, _validate_field_in_html "" s = true)
    ∧ _validate_records_against_html records html
        = records.filterMap fun r =>
            if _validate_field_in_html r.name html
                ∧ _validate_field_in_html r.department html
            then some
              { r with
                position := if _validate_field_in_html r.position html then r.position else "",
                specialty := if _validate_field_in_html r.specialty html then r.specialty else "",
                licence := if _validate_field_in_html r.licence html then r.licence else "",
                others := if _validate_field_in_html r.others html then r.others else "" }
            else none := by
  constructor
  · intro s
    unfold _validate_field_in_html
    simp
  · induction records with
    | nil => rfl
    | cons r rest ih =>
      by_cases hn : _validate_field_in_html r.name html
        <;> by_cases hd : _validate_field_in_html r.department html
        <;> simp [_validate_records_against_html, blankUnattestedFields, hn, hd,
              List.filterMap_cons, ih]

/-! ## Five-stage fallback decoder of the validation job
(`processors/doctor_info_validation.py`) -/

/-- `ValidationResult` (doctor_info_validation.py lines 25–41).  The
debug-only `html_excerpt` and the wall-clock `processing_time` float play no
role in parsing and are not modelled. -/
structure ValidationResult where
  validation_status : String
  validation_message : String
  corrected_name : String
  corrected_department : String
  corrected_position : String
  corrected_specialty : String
  corrected_licence : String
  corrected_others : String
  ai_response_raw : String := ""
  parsing_attempts : List String := []
deriving DecidableEq

/-- The input row (`pd.Series`) a validation item is built from; the fields
`_parse_ai_response_robust` and stage 5 read. -/
structure OriginalRecord where
  fac_id_unif : String
  name : String
  department : String
  position : String
  specialty : String
  licence : String
  others : String

/-- Python `s.split(sep)` on a one-character separator: splits at every
occurrence, keeping empty pieces (`''.split(sep) == ['']`). -/
def splitOnChar (sep : Char) : List Char → List (List Char)
  | [] => [[]]
  | c :: rest =>
    let r := splitOnChar sep rest
    if c = sep then [] :: r
    else
      match r with
      | [] => [[c]]
      | h :: t => (c :: h) :: t

/-- Python `s.split(sep)` producing strings. -/
def pySplitOn (s : String) (sep : Char) : List String :=
  (splitOnChar sep s.data).map String.mk

/-- The `while len(parts) < 8: parts.append("")` padding of stage 1. -/
def padTo8 (parts : List String) : List String :=
  parts ++ List.replicate (8 - parts.length) ""

/-- The `ValidationResult(...)` constructor call shared by stages 1, 2 and 4:
fields are `parts[0].strip() … parts[7].strip()` in schema order. -/
def resultFromParts (parts : List String) : ValidationResult :=
  let p := padTo8 parts
  { validation_status := pyStripS (p.getD 0 "")
    validation_message := pyStripS (p.getD 1 "")
    corrected_name := pyStripS (p.getD 2 "")
    corrected_department := pyStripS (p.getD 3 "")
    corrected_position := pyStripS (p.getD 4 "")
    corrected_specialty := pyStripS (p.getD 5 "")
    corrected_licence := pyStripS (p.getD 6 "")
    corrected_others := pyStripS (p.getD 7 "") }

/-- `_try_tab_separated_parsing` (stage 1, lines 499–519): first line that
contains a tab and splits into at least 3 fields, padded to the 8-field
schema. -/
def _try_tab_separated_parsing (response_text : String) : Option ValidationResult :=
  (pySplitOn (pyStripS response_text) '\n').findSome? fun line =>
    if strContains line "\t" then
      let parts := pySplitOn line '\t'
      if 3 ≤ parts.length then some (resultFromParts parts) else none
    else none

/-- `re.split(r'\s{2,}', ·)`: split at every maximal run of at least two
whitespace characters (a single whitespace character stays inside its
piece).  A state machine over the characters: `skipping = true` while inside
a separator run.  A separator at the end of the text yields a final empty
piece, exactly as `re.split` does. -/
def splitMultiSpaceGo : List Char → List Char → Bool → List (List Char)
  | [], _, true => [[]]
  | [], cur, false => [cur.reverse]
  | c :: rest, cur, false =>
    if isPySpace c then
      match rest with
      | [] => [(c :: cur).reverse]
      | d :: _ =>
        if isPySpace d then cur.reverse :: splitMultiSpaceGo rest [] true
        else splitMultiSpaceGo rest (c :: cur) false
    else splitMultiSpaceGo rest (c :: cur) false
  | c :: rest, cur, true =>
    if isPySpace c then splitMultiSpaceGo rest cur true
    else splitMultiSpaceGo rest [c] false

/-- `_try_space_separated_parsing` (stage 2, lines 521–537): first line whose
multi-space split yields at least 8 fields. -/
def _try_space_separated_parsing (response_text : String) : Option ValidationResult :=
  (pySplitOn (pyStripS response_text) '\n').findSome? fun line =>
    let parts := (splitMultiSpaceGo (pyStrip line.data) [] false).map String.mk
    if 8 ≤ parts.length then some (resultFromParts parts) else none

/-- Python `str.upper()` (ASCII). -/
def pyUpper (s : String) : String :=
  String.mk (s.data.map Char.toUpper)

/-- An ASCII letter — what `[A-Z]+` matches under `re.IGNORECASE`. -/
def isAsciiLetter (c : Char) : Bool :=
  ('A' ≤ c ∧ c ≤ 'Z') ∨ ('a' ≤ c ∧ c ≤ 'z')

/-- Whether stage 3's first pattern
`(VALID|PARTIAL|INVALID|NOTFOUND)\s*[:\-\|]\s*(.+)` (IGNORECASE) matches at
this position: a status keyword, then optional whitespace, a delimiter, and
(after optional whitespace) at least one non-newline character.  Returns the
upper-cased group 1.  The four alternatives start with distinct letters, so
at most one matches at a given position. -/
def pat1At (cs : List Char) : Option String :=
  ["VALID", "PARTIAL", "INVALID", "NOTFOUND"].find? fun kw =>
    (kw.data.map Char.toLower).isPrefixOf (cs.map Char.toLower)
    && (match (cs.drop kw.data.length).dropWhile isPySpace with
        | d :: tail =>
          (d = ':' ∨ d = '-' ∨ d = '|') && tail.any fun c => decide (c ≠ '\n')
        | [] => false)

/-- `re.search` for stage 3's first pattern: the leftmost matching position
wins. -/
def pat1Find : List Char → Option String
  | [] => none
  | c :: rest =>
    match pat1At (c :: rest) with
    | some kw => some kw
    | none => pat1Find rest

/-- `re.search` for the literal-prefixed patterns `ステータス[:\s]*([A-Z]+)`
and `判定[:\s]*([A-Z]+)` (IGNORECASE): at the leftmost occurrence of the
literal that is followed (after a run of `:`/whitespace) by an ASCII letter,
group 1 is the maximal letter run. -/
def patLiteralFind (lit : String) : List Char → Option String
  | [] => none
  | c :: rest =>
    if lit.data.isPrefixOf (c :: rest) then
      let after := ((c :: rest).drop lit.data.length).dropWhile
        fun ch => ch = ':' ∨ isPySpace ch
      let letters := after.takeWhile isAsciiLetter
      if letters = [] then patLiteralFind lit rest
      else some (String.mk letters)
    else patLiteralFind lit rest

/-- The fixed result stage 3 builds from an extracted status. -/
def regexResult (status : String) : ValidationResult :=
  { validation_status := status
    validation_message := "正規表現抽出"
    corrected_name := ""
    corrected_department := ""
    corrected_position := ""
    corrected_specialty := ""
    corrected_licence := ""
    corrected_others := "" }

/-- The `if status in ['VALID', 'PARTIAL', 'INVALID', 'NOTFOUND']` filter of
stage 3 applied to an upper-cased group. -/
def statusFromGroup (g : Option String) : Option String :=
  match g with
  | some s =>
    let u := pyUpper s
    if u = "VALID" ∨ u = "PARTIAL" ∨ u = "INVALID" ∨ u = "NOTFOUND"
    then some u else none
  | none => none

/-- `_try_regex_parsing` (stage 3, lines 539–563): the three patterns in
order; a pattern whose first match yields a status outside the known set
falls through to the next pattern. -/
def _try_regex_parsing (response_text : String) : Option ValidationResult :=
  match pat1Find response_text.data with
  | some status => some (regexResult status)
  | none =>
    match statusFromGroup (patLiteralFind "ステータス" response_text.data) with
    | some status => some (regexResult status)
    | none =>
      match statusFromGroup (patLiteralFind "判定" response_text.data) with
      | some status => some (regexResult status)
      | none => none

/-- `_try_comma_separated_parsing` (stage 4, lines 565–582): first line that
contains a comma and splits into at least 8 (stripped) fields. -/
def _try_comma_separated_parsing (response_text : String) : Option ValidationResult :=
  (pySplitOn (pyStripS response_text) '\n').findSome? fun line =>
    if strContains line "," then
      let parts := (pySplitOn line ',').map pyStripS
      if 8 ≤ parts.length then some (resultFromParts parts) else none
    else none

/-- `_try_natural_language_extraction` (stage 5, lines 583–642): keyword scan
over the lower-cased text, in source order INVALID → PARTIAL → VALID, with an
explicit NOTFOUND result when no keyword is present.  It returns a result for
every input string. -/
def _try_natural_language_extraction
    (response_text : String) (original_record : OriginalRecord) :
    Option ValidationResult :=
  let response_lower := pyLower response_text
  if ["invalid", "無効", "存在しない", "見つかりません", "該当なし"].any
      (fun kw => strContains response_lower kw) then
    some { validation_status := "INVALID"
           validation_message := "自然言語判定:無効"
           corrected_name := ""
           corrected_department := ""
           corrected_position := ""
           corrected_specialty := ""
           corrected_licence := ""
           corrected_others := "" }
  else if ["partial", "部分的", "一部"].any
      (fun kw => strContains response_lower kw) then
    some { validation_status := "PARTIAL"
           validation_message := "自然言語判定:部分一致"
           corrected_name := original_record.name
           corrected_department := original_record.department
           corrected_position := original_record.position
           corrected_specialty := original_record.specialty
           corrected_licence := original_record.licence
           corrected_others := original_record.others }
  else if ["valid", "正しい", "一致", "確認"].any
      (fun kw => strContains response_lower kw) then
    some { validation_status := "VALID"
           validation_message := "自然言語判定:有効"
           corrected_name := original_record.name
           corrected_department := original_record.department
           corrected_position := original_record.position
           corrected_specialty := original_record.specialty
           corrected_licence := original_record.licence
           corrected_others := original_record.others }
  else
    some { validation_status := "NOTFOUND"
           validation_message := "TSV解析失敗"
           corrected_name := original_record.name
           corrected_department := original_record.department
           corrected_position := ""
           corrected_specialty := ""
           corrected_licence := ""
           corrected_others := "" }

/-- `_parse_ai_response_robust` (lines 394–497): the five stages attempted in
order, each in its own `try` block (the stage bodies are total on strings, so
the `except` arms never fire); on success `parsing_attempts` records the
succeeding stage; the final all-failed fallback returns a NOTFOUND record
carrying the raw response text. -/
def _parse_ai_response_robust
    (response_text : String) (original_record : OriginalRecord) : ValidationResult :=
  match _try_tab_separated_parsing response_text with
  | some r => { r with parsing_attempts := ["tab_separated"] }
  | none =>
    match _try_space_separated_parsing response_text with
    | some r => { r with parsing_attempts := ["space_separated"] }
    | none =>
      match _try_regex_parsing response_text with
      | some r => { r with parsing_attempts := ["regex_based"] }
      | none =>
        match _try_comma_separated_parsing response_text with
        | some r => { r with parsing_attempts := ["comma_separated"] }
        | none =>
          match _try_natural_language_extraction response_text original_record with
          | some r => { r with parsing_attempts := ["natural_language"] }
          | none =>
            { validation_status := "NOTFOUND"
              validation_message := "解析失敗"
              corrected_name := original_record.name
              corrected_department := original_record.department
              corrected_position := ""
              corrected_specialty := ""
              corrected_licence := ""
              corrected_others := ""
              ai_response_raw := response_text
              parsing_attempts := [] }

/-- Stage 5 returns a result for every input, and that result carries one of
the four explicit statuses. -/
theorem natural_language_extraction_total
    (s : String) (orig : OriginalRecord) :
    ∃ r, _try_natural_language_extraction s orig = some r
      ∧ (r.validation_status = "INVALID" ∨ r.validation_status = "PARTIAL"
          ∨ r.validation_status = "VALID" ∨ r.validation_status = "NOTFOUND") := by
  simp only [_try_natural_language_extraction]
  split_ifs <;> exact ⟨_, rfl, by simp⟩

/-- C2: on every input string the decoder returns exactly one
`ValidationResult`, the one produced by the first stage that succeeds (each
earlier stage having returned nothing), and the chain is total: stage 5
always produces a result — an explicit `NOTFOUND` record when no status
keyword occurs — so the all-failed fallback (which would return a `NOTFOUND`
record quoting the raw text) is never reached on a string input. -/
theorem parse_ai_response_robust_first_success
    (s : String) (orig : OriginalRecord) :
    (∃ r, _try_tab_separated_parsing s = some r
        ∧ _parse_ai_response_robust s orig = { r with parsing_attempts := ["tab_separated"] })
    ∨ (_try_tab_separated_parsing s = none
        ∧ ∃ r, _try_space_separated_parsing s = some r
        ∧ _parse_ai_response_robust s orig = { r with parsing_attempts := ["space_separated"] })
    ∨ (_try_tab_separated_parsing s = none
        ∧ _try_space_separated_parsing s = none
        ∧ ∃ r, _try_regex_parsing s = some r
        ∧ _parse_ai_response_robust s orig = { r with parsing_attempts := ["regex_based"] })
    ∨ (_try_tab_separated_parsing s = none
        ∧ _try_space_separated_parsing s = none
        ∧ _try_regex_parsing s = none
        ∧ ∃ r, _try_comma_separated_parsing s = some r
        ∧ _parse_ai_response_robust s orig = { r with parsing_attempts := ["comma_separated"] })
    ∨ (_try_tab_separated_parsing s = none
        ∧ _try_space_separated_parsing s = none
        ∧ _try_regex_parsing s = none
        ∧ _try_comma_separated_parsing s = none
        ∧ ∃ r, _try_natural_language_extraction s orig = some r
        ∧ _parse_ai_response_robust s orig
            = { r with parsing_attempts := ["natural_language"] }) := by
  cases h1 : _try_tab_separated_parsing s with
  | some r =>
    exact Or.inl ⟨r, rfl, by unfold _parse_ai_response_robust; rw [h1]⟩
  | none =>
  cases h2 : _try_space_separated_parsing s with
  | some r =>
    exact Or.inr (Or.inl ⟨rfl, r, rfl, by unfold _parse_ai_response_robust; rw [h1, h2]⟩)
  | none =>
  cases h3 : _try_regex_parsing s with
  | some r =>
    exact Or.inr (Or.inr (Or.inl ⟨rfl, rfl, r, rfl, by
      unfold _parse_ai_response_robust; rw [h1, h2, h3]⟩))
  | none =>
  cases h4 : _try_comma_separated_parsing s with
  | some r =>
    exact Or.inr (Or.inr (Or.inr (Or.inl ⟨rfl, rfl, rfl, r, rfl, by
      unfold _parse_ai_response_robust; rw [h1, h2, h3, h4]⟩)))
  | none =>
    obtain ⟨r, hr, _⟩ := natural_language_extraction_total s orig
    exact Or.inr (Or.inr (Or.inr (Or.inr ⟨rfl, rfl, rfl, rfl, r, hr, by
      unfold _parse_ai_response_robust; rw [h1, h2, h3, h4, hr]⟩)))

/-! ## Bounded-concurrency batch dispatcher
(`processors/base_processor.py`, `BaseProcessor.process_batch_async`)

`process_batch_async` creates `asyncio.Semaphore(config.max_concurrent_requests)`
and one task per batch item; each task acquires the semaphore, runs
`process_single_item` (whose outcome for item `i` is abstracted as `f i` — a
record list or a raised exception, caught by `gather(return_exceptions=True)`),
and releases the semaphore on exit of the `async with`.  The execution is
embedded as a transition system over the task states; any interleaving the
event loop can produce is a path of this system. -/

/-- `config.max_concurrent_requests` default (config.py line 41). -/
def max_concurrent_requests_default : Nat := 5

/-- The state of one dispatched task. -/
inductive TaskState (ρ : Type) where
  | pending
  | running
  | done (result : ρ)
deriving DecidableEq

/-- Whether a task currently holds the semaphore (its remote call is in
flight). -/
def TaskState.isRunning {ρ : Type} : TaskState ρ → Bool
  | .running => true
  | _ => false

/-- The dispatcher state: free semaphore permits and the per-item task
states. -/
structure BatchState (ρ : Type) where
  sem : Nat
  tasks : List (TaskState ρ)
deriving DecidableEq

/-- The batch as created: a full semaphore of `C` permits and one pending
task per item. -/
def initBatch (ρ : Type) (C n : Nat) : BatchState ρ :=
  ⟨C, List.replicate n .pending⟩

/-- One scheduler step: a pending task acquires a free permit and starts its
call, or a running task finishes (its outcome is `f i`) and releases its
permit. -/
inductive BatchStep {ρ : Type} (f : Nat → ρ) : BatchState ρ → BatchState ρ → Prop where
  | start {s : BatchState ρ} (i : Nat) :
      s.tasks.get? i = some .pending → 0 < s.sem →
      BatchStep f s ⟨s.sem - 1, s.tasks.set i .running⟩
  | finish {s : BatchState ρ} (i : Nat) :
      s.tasks.get? i = some .running →
      BatchStep f s ⟨s.sem + 1, s.tasks.set i (.done (f i))⟩

/-- States reachable by the dispatcher from the initial batch state. -/
inductive BatchReachable {ρ : Type} (f : Nat → ρ) (C n : Nat) : BatchState ρ → Prop where
  | init : BatchReachable f C n (initBatch ρ C n)
  | step {s t : BatchState ρ} :
      BatchReachable f C n s → BatchStep f s t → BatchReachable f C n t

/-- The number of in-flight calls. -/
def runningCount {ρ : Type} (s : BatchState ρ) : Nat :=
  s.tasks.countP TaskState.isRunning

theorem countP_set_eq {α : Type} (p : α → Bool) :
    ∀ (l : List α) (i : Nat) (a b : α), l.get? i = some b →
      (l.set i a).countP p + (if p b then 1 else 0)
        = l.countP p + (if p a then 1 else 0) := by
  intro l
  induction l with
  | nil => intro i a b h; simp at h
  | cons x xs ih =>
    intro i a b h
    cases i with
    | zero =>
      simp only [List.get?] at h
      cases h
      simp only [List.set, List.countP_cons]
      omega
    | succ j =>
      simp only [List.get?] at h
      simp only [List.set, List.countP_cons]
      have := ih j a b h
      omega

theorem countP_replicate_pending (ρ : Type) (n : Nat) :
    (List.replicate n (TaskState.pending : TaskState ρ)).countP TaskState.isRunning = 0 := by
  induction n with
  | zero => rfl
  | succ m ih => simpa [List.replicate, List.countP_cons, TaskState.isRunning] using ih

/-- The dispatcher invariant: the permit count plus the in-flight count is
always `C`, the task list always has one entry per item, and a finished task
holds exactly its item's outcome. -/
theorem batch_invariant {ρ : Type} (f : Nat → ρ) (C n : Nat) (s : BatchState ρ)
    (h : BatchReachable f C n s) :
    s.sem + runningCount s = C
    ∧ s.tasks.length = n
    ∧ (∀ i st, s.tasks.get? i = some st →
        st = .pending ∨ st = .running ∨ st = .done (f i)) := by
  induction h with
  | init =>
    refine ⟨?_, by simp [initBatch], ?_⟩
    · simp [initBatch, runningCount, countP_replicate_pending]
    · intro i st hst
      simp only [initBatch] at hst
      rcases List.get?_eq_some.mp hst with ⟨hlt, hval⟩
      rw [List.get_replicate] at hval
      exact Or.inl hval.symm
  | step hr hstep ih =>
    obtain ⟨ihsem, ihlen, ihdone⟩ := ih
    cases hstep with
    | start i hi hsem =>
      rename_i s
      have hc := countP_set_eq TaskState.isRunning s.tasks i .running .pending hi
      refine ⟨?_, by simpa using ihlen, ?_⟩
      · show s.sem - 1 + (s.tasks.set i .running).countP TaskState.isRunning = C
        simp only [runningCount] at ihsem
        simp [TaskState.isRunning] at hc
        omega
      · intro j st hst
        by_cases hij : j = i
        · subst hij
          rw [List.get?_set_eq_of_lt] at hst
          · cases hst; exact Or.inr (Or.inl rfl)
          · exact List.get?_eq_some.mp hi |>.1
        · rw [List.get?_set_ne _ _ (fun hji => hij hji.symm)] at hst
          exact ihdone j st hst
    | finish i hi =>
      rename_i s
      have hc := countP_set_eq TaskState.isRunning s.tasks i (.done (f i)) .running hi
      refine ⟨?_, by simpa using ihlen, ?_⟩
      · show s.sem + 1 + (s.tasks.set i (.done (f i))).countP TaskState.isRunning = C
        simp only [runningCount] at ihsem
        simp [TaskState.isRunning] at hc
        omega
      · intro j st hst
        by_cases hij : j = i
        · subst hij
          rw [List.get?_set_eq_of_lt] at hst
          · cases hst; exact Or.inr (Or.inr rfl)
          · exact List.get?_eq_some.mp hi |>.1
        · rw [List.get?_set_ne _ _ (fun hji => hij hji.symm)] at hst
          exact ihdone j st hst

/-- C9: in every reachable dispatcher state at most `C` remote calls are in
flight (indeed free permits plus in-flight calls always equal `C`), and when
every task has finished, the task list is exactly one `done` result per item,
the `i`-th holding `f i` — `gather` then hands back exactly one result per
item, in item order. -/
theorem batch_dispatcher_bound_and_results {ρ : Type} (f : Nat → ρ) (C n : Nat)
    (s : BatchState ρ) (h : BatchReachable f C n s) :
    runningCount s ≤ C
    ∧ s.sem + runningCount s = C
    ∧ s.tasks.length = n
    ∧ ((∀ t ∈ s.tasks, ∃ r, t = TaskState.done r) →
        s.tasks = (List.range n).map fun i => TaskState.done (f i)) := by
  obtain ⟨hsem, hlen, hdone⟩ := batch_invariant f C n s h
  refine ⟨by omega, hsem, hlen, ?_⟩
  intro hall
  apply List.ext_get?
  intro i
  by_cases hi : i < n
  · have hi' : i < s.tasks.length := by omega
    have hget : s.tasks.get? i = some (s.tasks.get ⟨i, hi'⟩) := List.get?_eq_get hi'
    have hmem : s.tasks.get ⟨i, hi'⟩ ∈ s.tasks := List.get_mem _ _ _
    obtain ⟨r, hr⟩ := hall _ hmem
    have hd := hdone i _ hget
    rw [hr] at hd
    have hdr : TaskState.done r = TaskState.done (f i) := by
      rcases hd with h1 | h1 | h1
      · exact absurd h1 (by simp)
      · exact absurd h1 (by simp)
      · exact h1
    rw [hget, hr, hdr, List.get?_map, List.get?_range hi]
    rfl
  · rw [List.get?_eq_none.mpr (by omega), List.get?_eq_none.mpr (by simp; omega)]

/-- The spec's test scenario (`C = 2`, 10 items) one scheduler step in: item
0 has acquired the semaphore and its call is in flight. -/
def batchWitnessState : BatchState Nat :=
  ⟨1, (List.replicate 10 (TaskState.pending : TaskState Nat)).set 0 .running⟩

/-- Witness for `batch_dispatcher_bound_and_results` at `C = 2`, `n = 10`:
the state with one in-flight call is reachable and satisfies the bound. -/
theorem batch_dispatcher_bound_and_results_witness :
    runningCount batchWitnessState ≤ 2
    ∧ batchWitnessState.sem + runningCount batchWitnessState = 2
    ∧ batchWitnessState.tasks.length = 10
    ∧ ((∀ t ∈ batchWitnessState.tasks, ∃ r, t = TaskState.done r) →
        batchWitnessState.tasks
          = (List.range 10).map fun i => TaskState.done ((fun j => j) i)) :=
  batch_dispatcher_bound_and_results (fun j => j) 2 10 batchWitnessState
    (BatchReachable.step BatchReachable.init
      (BatchStep.start (s := initBatch Nat 2 10) 0 (by decide) (by decide)))

end DrTrack
